import Mathlib

/-!
Verification of the image pull-policy and pull-ledger logic of the `pack`
image fetcher (files `pkg/image/pull_policy.go` and `pkg/image/fetcher.go`).

The Go code is shallowly embedded: pure string/arithmetic logic is translated
to executable Lean functions; filesystem- and daemon-facing calls of
`Fetcher.Fetch` are modelled as oracle results supplied through an
environment record, while the ledger writes that `Fetch` performs are
tracked in an explicit event trace.
-/

/-- Outcome of a Go function call: a normal result, a returned `error`, or a
runtime panic (such as an index-out-of-range access). Strings carry the
error messages built by the Go code. -/
inductive GoResult (α : Type) where
  | ok (a : α)
  | err (msg : String)
  | panic
  deriving DecidableEq, Repr

/-- Constant `time.Minute` in nanoseconds: Go durations are `int64` nanosecond counts
and `parseDurationString` returns `time.Duration(totalMinutes) * time.Minute`. -/
def timeMinute : Int := 60000000000

/-- Go `strconv.Atoi`: an optional sign followed by one or more decimal
digits, rejecting anything else, and rejecting values outside the `int64`
range (on 64-bit platforms `Atoi` reports a range error which the caller in
`parseDurationString` treats like any other error). -/
def goAtoi (cs : List Char) : Except String Int :=
  let signAndDigits : Int × List Char :=
    match cs with
    | '+' :: r => (1, r)
    | '-' :: r => (-1, r)
    | _ => (1, cs)
  let sign := signAndDigits.1
  let ds := signAndDigits.2
  if ds.isEmpty || !(ds.all Char.isDigit) then
    Except.error ("invalid syntax")
  else
    let n : Int := sign * (ds.foldl (fun n c => n * 10 + (c.toNat - 48)) 0 : Nat)
    if n < -(2 ^ 63) || (2 ^ 63 : Int) ≤ n then Except.error ("value out of range")
    else Except.ok n

/-- The loop of `parseDurationString` (pull_policy.go:175-199), made
structurally recursive on the unread characters.

State `none` is the top of the outer loop at position `i`; consuming `c`
there corresponds to `endIndex := i + 1` (the first character of a segment is
taken unconditionally, digit or not). State `some numAcc` scans
`durationStr[i:endIndex]` while bytes are in `'0'..'9'`. When the digit scan
reaches the end of the string, Go evaluates `unit := durationStr[endIndex]`
with `endIndex = len(durationStr)` — an out-of-range index — after the
`Atoi` error check, hence `GoResult.panic` in the `[], some` case with a
well-formed number. Unit handling and the (misspelled) error messages follow
the source. -/
def parseDurationGo (durationStr : String) : List Char → Option (List Char) → Int → GoResult Int
  | [], none, totalMinutes => GoResult.ok totalMinutes
  | [], some numAcc, _ =>
    match goAtoi numAcc with
    | Except.error _ => GoResult.err ("invalid interval format: " ++ durationStr)
    | Except.ok _ => GoResult.panic
  | c :: rest, none, totalMinutes => parseDurationGo durationStr rest (some [c]) totalMinutes
  | u :: rest, some numAcc, totalMinutes =>
    if u.isDigit then parseDurationGo durationStr rest (some (numAcc ++ [u])) totalMinutes
    else
      match goAtoi numAcc with
      | Except.error _ => GoResult.err ("invalid interval format: " ++ durationStr)
      | Except.ok value =>
        if u = 'd' then parseDurationGo durationStr rest none (totalMinutes + value * 24 * 60)
        else if u = 'h' then parseDurationGo durationStr rest none (totalMinutes + value * 60)
        else if u = 'm' then parseDurationGo durationStr rest none (totalMinutes + value)
        else GoResult.err ("invalid interval uniit: " ++ String.mk [u])

/-- Function `parseDurationString` (pull_policy.go:173-202): sums `<integer><unit>`
segments into minutes and converts to a duration by multiplying with
`time.Minute`. -/
def parseDurationString (durationStr : String) : GoResult Int :=
  match parseDurationGo durationStr durationStr.toList none 0 with
  | GoResult.ok totalMinutes => GoResult.ok (totalMinutes * timeMinute)
  | GoResult.err e => GoResult.err e
  | GoResult.panic => GoResult.panic

/-- One optional group `(\d+<unit>)?` of `intervalRegex`, matched at the
front of `cs`: consumed when a nonempty maximal digit run is followed
immediately by `unit`, otherwise the group matches the empty string and `cs`
is left unchanged. (`\d+` must take the maximal run, since the character
after the digits it takes has to be the non-digit `unit`.) -/
def chompGroup (unit : Char) (cs : List Char) : List Char :=
  match cs.takeWhile Char.isDigit, cs.dropWhile Char.isDigit with
  | _ :: _, r :: rs => if r = unit then rs else cs
  | _, _ => cs

/-- Regex `intervalRegex = ^(\d+d)?(\d+h)?(\d+m)?$` (pull_policy.go:23):
the whole string must be the three optional groups in the order d, h, m. -/
def intervalRegexMatches (s : String) : Bool :=
  (chompGroup 'm' (chompGroup 'h' (chompGroup 'd' s.toList))).isEmpty

/-- The `PullPolicy` enumeration. `PullAlways`, `PullNever`,
`PullIfNotPresent` and `PullWithInterval` are declared in
pull_policy.go:27-36. Modelled from the spec: the constants `PullHourly`,
`PullDaily` and `PullWeekly` (the fixed aliases for pre-set interval specs)
are referenced by fetcher.go:47 and fetcher.go:131 but their declaration is
in a revision of pull_policy.go that is absent from src/. -/
inductive PullPolicy where
  | PullAlways
  | PullNever
  | PullIfNotPresent
  | PullWithInterval
  | PullHourly
  | PullDaily
  | PullWeekly
  deriving DecidableEq, BEq, Repr

/-- Map `nameMap` (pull_policy.go:49), as an association list with the map's
four entries. -/
def nameMap : List (String × PullPolicy) :=
  [("always", PullPolicy.PullAlways), ("never", PullPolicy.PullNever),
   ("if-not-present", PullPolicy.PullIfNotPresent), ("", PullPolicy.PullAlways)]

/-- Function `ParsePullPolicy` (pull_policy.go:52-71): a `nameMap` hit is returned
directly; otherwise an `interval=` prefix is stripped and the remainder is
validated against `intervalRegex` (`FindStringSubmatch` returns an empty
slice exactly when the anchored regex does not match). The side effects of
the source — the package-level `interval` variable is set to the whole
policy string, and a valid spec is persisted to the ledger via
`updateImageJSONDuration` — do not affect the returned value modelled here;
the ambient `interval` variable is passed to `PullPolicyString` explicitly. -/
def ParsePullPolicy (policy : String) : Except String PullPolicy :=
  match nameMap.lookup policy with
  | some val => Except.ok val
  | none =>
    if ("interval=".toList).isPrefixOf policy.toList then
      let intervalStr := String.mk (policy.toList.drop 9)
      if intervalRegexMatches intervalStr then Except.ok PullPolicy.PullWithInterval
      else Except.error ("invalid interval format: " ++ intervalStr)
    else Except.error ("invalid pull policy " ++ policy)

/-- Method `PullPolicy.String` (pull_policy.go:73-86). The `PullWithInterval` case
renders the package-level `interval` variable (here the explicit `interval`
argument, holding whatever full policy string was last parsed); policies
with no switch case fall through to `""`. -/
def PullPolicyString (interval : String) : PullPolicy → String
  | PullPolicy.PullAlways => "always"
  | PullPolicy.PullNever => "never"
  | PullPolicy.PullIfNotPresent => "if-not-present"
  | PullPolicy.PullWithInterval => "interval=" ++ interval
  | _ => ""


/-- A timestamp string as stored in the ledger JSON, represented by its
`time.Parse(time.RFC3339, _)` result: `valid t` stands for a string the
parser accepts, denoting the instant `t` (nanoseconds), and `invalid s` for
a string it rejects (in particular the empty string `invalid ""`).
`time.Now().Format(time.RFC3339)` is modelled as `valid now`. -/
inductive TimeStr where
  | valid (t : Int)
  | invalid (s : String)
  deriving DecidableEq, Repr

/-- Is this stored string accepted by `time.Parse`? -/
def TimeStr.isValid : TimeStr → Bool
  | TimeStr.valid _ => true
  | TimeStr.invalid _ => false

/-- The `Interval` part of `ImageJSON` (pull_policy.go:39-43), with the
source's (misspelled) `PruningIinterval` field name. -/
structure ImageJSONInterval where
  PullingInterval : String
  PruningIinterval : String
  LastPrune : TimeStr
  deriving DecidableEq, Repr

/-- The `Image` part of `ImageJSON` (pull_policy.go:44-46): the Go
`map[string]string` from image key to last-pull timestamp, as an
association list (the spec guarantees keys are unique by construction). -/
structure ImageJSONImage where
  ImageIDtoTIME : List (String × TimeStr)
  deriving DecidableEq, Repr

/-- The persisted ledger document `ImageJSON` (pull_policy.go:38-47). -/
structure ImageJSON where
  Interval : ImageJSONInterval
  Image : ImageJSONImage
  deriving DecidableEq, Repr

/-- Function `CheckImagePullInterval` (pull_policy.go:144-171 as a `Fetcher` method
and fetcher.go:350-377 as a package function; the two bodies are
identical), applied to the ledger record the preceding `readImageJSON`
returned and to the single `time.Now()` instant `now` the function takes.
An unrecorded key yields `true`; otherwise the recorded timestamp is
compared with `timeThreshold := now - duration` by the strict
`Time.Before`. -/
def CheckImagePullInterval (imageJSON : ImageJSON) (imageID : String) (now : Int) : GoResult Bool :=
  match imageJSON.Image.ImageIDtoTIME.lookup imageID with
  | none => GoResult.ok true
  | some (TimeStr.invalid _) => GoResult.err ("failed to parse image timestamp from JSON")
  | some (TimeStr.valid imageTimestamp) =>
    match parseDurationString imageJSON.Interval.PullingInterval with
    | GoResult.err _ => GoResult.err ("failed to parse duration from JSON")
    | GoResult.panic => GoResult.panic
    | GoResult.ok duration => GoResult.ok (decide (imageTimestamp < now - duration))

/-- The pruning half of `PruneOldImages` (pull_policy.go:227-257): parse the
pruning interval, delete every entry whose timestamp is strictly `Before`
`pruningThreshold := now - pruningDuration` (an entry is kept exactly when
`now - pruningDuration ≤ t`), failing if some stored timestamp does not
parse; then set `LastPrune` to the formatted current time and write the
file. The returned flag records that the file was rewritten. -/
def pruneBody (j : ImageJSON) (now : Int) : GoResult (ImageJSON × Bool) :=
  match parseDurationString j.Interval.PruningIinterval with
  | GoResult.err _ => GoResult.err ("failed to parse pruning interval from JSON")
  | GoResult.panic => GoResult.panic
  | GoResult.ok pruningDuration =>
    if j.Image.ImageIDtoTIME.all (fun p => p.2.isValid) then
      GoResult.ok
        ({ Interval := { j.Interval with LastPrune := TimeStr.valid now },
           Image := { ImageIDtoTIME := j.Image.ImageIDtoTIME.filter (fun p =>
             match p.2 with
             | TimeStr.valid t => decide (now - pruningDuration ≤ t)
             | TimeStr.invalid _ => true) } }, true)
    else GoResult.err ("failed to parse image timestamp fron JSON")

/-- Function `PruneOldImages` (pull_policy.go:204-258), applied to the ledger record
the preceding `readImageJSON` returned and to the single current instant
`now` (`time.Since(t) = now - t`). With a nonempty `LastPrune` that parses,
the call is a no-op returning the record unchanged and writing nothing when
`now - lastPruneTime < pruningInterval`; otherwise it runs `pruneBody`.
The `Bool` of the result is `true` exactly when the ledger file was
rewritten. -/
def PruneOldImages (j : ImageJSON) (now : Int) : GoResult (ImageJSON × Bool) :=
  match j.Interval.LastPrune with
  | TimeStr.invalid s =>
    if s = "" then pruneBody j now
    else GoResult.err ("failed to parse last prune timestamp from JSON")
  | TimeStr.valid lastPruneTime =>
    match parseDurationString j.Interval.PruningIinterval with
    | GoResult.err _ => GoResult.err ("failed to parse pruning interval from JSON")
    | GoResult.panic => GoResult.panic
    | GoResult.ok pruningInterval =>
      if now - lastPruneTime < pruningInterval then GoResult.ok (j, false)
      else pruneBody j now

/-- Struct `LayoutOption` (fetcher.go:34-37). -/
structure LayoutOption where
  Path : String
  Sparse : Bool
  deriving DecidableEq, Repr

/-- Struct `FetchOptions` (fetcher.go:84-89). -/
structure FetchOptions where
  Daemon : Bool
  Platform : String
  PullPolicy : PullPolicy
  LayoutOption : LayoutOption
  deriving DecidableEq, Repr

/-- A Go `error` value as `Fetch` inspects it: whether
`errors.Is(err, ErrNotFound)` holds, whether `err.Error()` contains the
platform-mismatch phrase `"does not match the specified platform"`, and the
message itself. -/
structure GoErr where
  isNotFound : Bool
  platformMismatch : Bool
  msg : String
  deriving DecidableEq, Repr

/-- What a `Fetch` call returns: the `(imgutil.Image, error)` pair collapsed
to its significant cases, plus a runtime panic outcome. Image handles are
opaque and identified by a number. -/
inductive FetchResult where
  | ok (img : Nat)
  | err (e : GoErr)
  | panic
  deriving DecidableEq, Repr

/-- A write of the ledger file performed during `Fetch`: the self-healing
eviction's `WriteFile` (fetcher.go:146), a `PruneOldImages` call
(fetcher.go:153, which rewrites the file unless it is within the pruning
interval), and an `UpdateImagePullRecord` call (fetcher.go:178, which
rewrites the file). `Fetch` performs no other ledger write — in particular
the pulling-interval update `updateImageJSONDuration` runs only inside
`ParsePullPolicy`, never inside `Fetch`. -/
inductive LedgerWrite where
  | evict (name : String)
  | prune
  | update (name : String)
  deriving DecidableEq, Repr

instance {ε α : Type} [DecidableEq ε] [DecidableEq α] : DecidableEq (Except ε α) := fun x y =>
  match x, y with
  | Except.error e1, Except.error e2 =>
    if h : e1 = e2 then Decidable.isTrue (congrArg Except.error h)
    else Decidable.isFalse (fun hc => h (Except.error.inj hc))
  | Except.ok a1, Except.ok a2 =>
    if h : a1 = a2 then Decidable.isTrue (congrArg Except.ok h)
    else Decidable.isFalse (fun hc => h (Except.ok.inj hc))
  | Except.error _, Except.ok _ => Decidable.isFalse (fun hc => Except.noConfusion hc)
  | Except.ok _, Except.error _ => Decidable.isFalse (fun hc => Except.noConfusion hc)

/-- Results of the external calls a single `Fetch` makes, in source order.
`translate` is `pname.TranslateRegistry`; `layoutImage`, `remoteImage` are
`fetchLayoutImage` / `fetchRemoteImage`; `daemonBefore` is the
`fetchDaemonImage` lookup made before any pull (fetcher.go:124, 127, 137)
and `daemonAfter` the one after the pull phase (fetcher.go:171);
`checkPull`/`checkErr` are the two return values of the
`imagePullChecker.CheckImagePullInterval` call; `pullFirst`/`pullRetry` are
the two possible `pullImage` calls (`none` = success); `pruneErr` and
`updateErr` are the errors of `imagePullChecker.PruneOldImages` and
`imagePullChecker.UpdateImagePullRecord`.

Modelled from the spec: the package function `ReadImageJSON` used by the
eviction branch (declared in the `ImagePullChecker` interface,
fetcher.go:41, and called at fetcher.go:139, but defined in a revision of
pull_policy.go absent from src/) loads the ledger document and fails with
an IOError or CorruptRecord; per Go convention its `*ImageJSON` result is
nil exactly on failure, so it is modelled as `Option ImageJSON` with `none`
for the failure case. `writeFileErr` is the result of the similarly absent
`WriteFile`, whose failure the eviction branch only logs. -/
structure FetchEnv where
  translate : Except GoErr String
  layoutImage : Except GoErr Nat
  remoteImage : Except GoErr Nat
  daemonBefore : Except GoErr Nat
  daemonAfter : Except GoErr Nat
  checkPull : Bool
  checkErr : Option GoErr
  readImageJSON : Option ImageJSON
  writeFileErr : Option GoErr
  pruneErr : Option GoErr
  pullFirst : Option GoErr
  pullRetry : Option GoErr
  updateErr : Option GoErr
  deriving DecidableEq, Repr

/-- What one `Fetch` call produced: its return value, the trace of ledger
writes it performed, and the maintenance warnings it logged. -/
structure FetchOutput where
  result : FetchResult
  writes : List LedgerWrite
  warnings : List String
  deriving DecidableEq, Repr

/-- Function `intervalPolicy` (fetcher.go:46-48). -/
def intervalPolicy (options : FetchOptions) : Bool :=
  options.PullPolicy == PullPolicy.PullWithInterval
    || options.PullPolicy == PullPolicy.PullHourly
    || options.PullPolicy == PullPolicy.PullDaily
    || options.PullPolicy == PullPolicy.PullWeekly

/-- The `(imgutil.Image, error)` pair of a fetch helper as a result. -/
def exceptToResult : Except GoErr Nat → FetchResult
  | Except.ok img => FetchResult.ok img
  | Except.error e => FetchResult.err e

/-- Fetcher.Fetch after the pull (fetcher.go:171-183): re-resolve the
daemon image — any lookup failure is fatal — then, under an interval-gated
policy, call `UpdateImagePullRecord`, whose failure is returned as the
call's error (fetcher.go:178-180). -/
def afterPull (env : FetchEnv) (name : String) (options : FetchOptions)
    (writes : List LedgerWrite) (warnings : List String) : FetchOutput :=
  match env.daemonAfter with
  | Except.error e => { result := FetchResult.err e, writes := writes, warnings := warnings }
  | Except.ok image =>
    if intervalPolicy options then
      match env.updateErr with
      | some e => { result := FetchResult.err e, writes := writes ++ [LedgerWrite.update name],
                    warnings := warnings }
      | none => { result := FetchResult.ok image, writes := writes ++ [LedgerWrite.update name],
                  warnings := warnings }
    else { result := FetchResult.ok image, writes := writes, warnings := warnings }

/-- Fetcher.Fetch pull phase (fetcher.go:159-169): `pullImage` at the
requested platform; if its error message contains the platform-mismatch
phrase, retry exactly once with the platform cleared, the retry's outcome
replacing the error. A `NotFound` pull error is tolerated; any other error
is fatal. -/
def pullPhase (env : FetchEnv) (name : String) (options : FetchOptions)
    (writes : List LedgerWrite) (warnings : List String) : FetchOutput :=
  let pullErr : Option GoErr :=
    match env.pullFirst with
    | none => none
    | some e => if e.platformMismatch then env.pullRetry else some e
  match pullErr with
  | some e =>
    if e.isNotFound then afterPull env name options writes warnings
    else { result := FetchResult.err e, writes := writes, warnings := warnings }
  | none => afterPull env name options writes warnings

/-- Method `Fetcher.Fetch` (fetcher.go:108-184). Mirror translation happens first;
a non-empty `LayoutOption` diverts to the layout path and a non-daemon
target to the registry path, both without touching policy or ledger. On the
daemon path the policy switch follows the source: `PullNever` returns the
daemon lookup as-is; `PullIfNotPresent` returns it unless the error is
`NotFound`; the four interval-gated policies consult
`CheckImagePullInterval` (logging a warning on its error and using its
boolean as returned), and when no pull is due return the daemon lookup,
evicting the stale ledger entry on `NotFound` — the record obtained from
`ReadImageJSON` at fetcher.go:139 is dereferenced with the read error
discarded (`imageJSON, _ :=`), which on a failed read is a nil-pointer
dereference, i.e. a panic; when a pull is due, `PruneOldImages` runs with
its error only warned about. `PullAlways` matches no switch case and falls
through to the pull phase. -/
def Fetch (env : FetchEnv) (_name0 : String) (options : FetchOptions) : FetchOutput :=
  match env.translate with
  | Except.error e => { result := FetchResult.err e, writes := [], warnings := [] }
  | Except.ok name =>
    if options.LayoutOption ≠ { Path := "", Sparse := false } then
      { result := exceptToResult env.layoutImage, writes := [], warnings := [] }
    else if !options.Daemon then
      { result := exceptToResult env.remoteImage, writes := [], warnings := [] }
    else
      match options.PullPolicy with
      | PullPolicy.PullNever =>
        { result := exceptToResult env.daemonBefore, writes := [], warnings := [] }
      | PullPolicy.PullIfNotPresent =>
        match env.daemonBefore with
        | Except.ok img => { result := FetchResult.ok img, writes := [], warnings := [] }
        | Except.error e =>
          if e.isNotFound then pullPhase env name options [] []
          else { result := FetchResult.err e, writes := [], warnings := [] }
      | PullPolicy.PullWithInterval | PullPolicy.PullDaily
      | PullPolicy.PullHourly | PullPolicy.PullWeekly =>
        let warnings1 : List String :=
          match env.checkErr with
          | some _ => ["failed to check pulling interval"]
          | none => []
        if !env.checkPull then
          match env.daemonBefore with
          | Except.ok img =>
            { result := FetchResult.ok img, writes := [], warnings := warnings1 }
          | Except.error e =>
            if e.isNotFound then
              match env.readImageJSON with
              | none => { result := FetchResult.panic, writes := [], warnings := warnings1 }
              | some _ =>
                { result := FetchResult.err e, writes := [LedgerWrite.evict name],
                  warnings := warnings1 }
            else { result := FetchResult.err e, writes := [], warnings := warnings1 }
        else
          let warnings2 : List String :=
            warnings1 ++ (match env.pruneErr with
              | some _ => ["Failed to prune images"]
              | none => [])
          pullPhase env name options [LedgerWrite.prune] warnings2
      | PullPolicy.PullAlways => pullPhase env name options [] []

/-- Claim C7: `parseDurationString "2d3h30m"` is 2*1440+3*60+30 minutes,
`parseDurationString ""` is the zero duration, and `parseDurationString "5x"`
fails with an invalid-format error (the source's misspelled
"invalid interval uniit" message). -/
theorem parseDurationString_examples :
    parseDurationString ("2d3h30m") = GoResult.ok ((2 * 1440 + 3 * 60 + 30) * timeMinute)
      ∧ parseDurationString ("") = GoResult.ok 0
      ∧ parseDurationString ("5x") = GoResult.err ("invalid interval uniit: x") := by
  exact ⟨by decide, by decide, by decide⟩

/-- Claim C9: the claim that `parseDurationString` is total fails — on the
input "15", which ends with digits and no unit letter, the Go code evaluates
`durationStr[endIndex]` with `endIndex = len(durationStr)`, an
index-out-of-range access, modelled as the panic outcome. -/
theorem parseDurationString_trailing_digits_panic :
    parseDurationString ("15") = GoResult.panic := by decide

/-- Claim C5 counterexample: `parseDurationString "1h2d"` does not fail with
an invalid-format error; it succeeds, summing the segments in the order they
appear to 1*60+2*1440 minutes. -/
theorem parseDurationString_reorder_counterexample :
    parseDurationString ("1h2d") = GoResult.ok ((1 * 60 + 2 * 1440) * timeMinute) := by decide

/-- Claim C5 amended: the canonical parser `parseDurationString` accepts
unit segments in any order ("1h2d" parses to 2940 minutes); the d→h→m order
is enforced only by `intervalRegex`, so the policy parser rejects
"interval=1h2d" with an invalid-interval-format error. -/
theorem duration_order_enforced_only_by_regex :
    parseDurationString ("1h2d") = GoResult.ok (2940 * timeMinute)
      ∧ intervalRegexMatches ("1h2d") = false
      ∧ ParsePullPolicy ("interval=1h2d") = Except.error ("invalid interval format: 1h2d") := by
  exact ⟨by decide, by decide, rfl⟩

/-- Claim C4 counterexample: the aliases "hourly", "daily" and "weekly" do
not parse; `ParsePullPolicy` rejects each with an invalid-policy error. -/
theorem parsePullPolicy_alias_counterexample :
    ParsePullPolicy ("hourly") = Except.error ("invalid pull policy hourly")
      ∧ ParsePullPolicy ("daily") = Except.error ("invalid pull policy daily")
      ∧ ParsePullPolicy ("weekly") = Except.error ("invalid pull policy weekly") :=
  ⟨rfl, rfl, rfl⟩

/-- Claim C4 amended: `ParsePullPolicy` accepts exactly "always", "never",
"if-not-present", the empty string (as Always), and "interval=<spec>" with
`<spec>` matching `intervalRegex`; every other input — the hourly, daily
and weekly aliases included — fails with an invalid-policy (or, under an
`interval=` prefix, invalid-interval-format) error. -/
theorem parsePullPolicy_grammar (s : String) :
    ParsePullPolicy s =
      if s = "always" ∨ s = "" then Except.ok PullPolicy.PullAlways
      else if s = "never" then Except.ok PullPolicy.PullNever
      else if s = "if-not-present" then Except.ok PullPolicy.PullIfNotPresent
      else if ("interval=".toList).isPrefixOf s.toList then
        if intervalRegexMatches (String.mk (s.toList.drop 9)) then
          Except.ok PullPolicy.PullWithInterval
        else Except.error ("invalid interval format: " ++ String.mk (s.toList.drop 9))
      else Except.error ("invalid pull policy " ++ s) := by
  by_cases h1 : s = "always"
  · subst h1; decide
  by_cases h2 : s = ""
  · subst h2; decide
  by_cases h3 : s = "never"
  · subst h3; decide
  by_cases h4 : s = "if-not-present"
  · subst h4; decide
  have e1 : (s == "always") = false := beq_eq_false_iff_ne.mpr h1
  have e2 : (s == "") = false := beq_eq_false_iff_ne.mpr h2
  have e3 : (s == "never") = false := beq_eq_false_iff_ne.mpr h3
  have e4 : (s == "if-not-present") = false := beq_eq_false_iff_ne.mpr h4
  simp [ParsePullPolicy, nameMap, List.lookup, h1, h2, h3, h4, e1, e2, e3, e4]

/-- Claim C8: parsing each of the three policy literals and rendering the
result with `String()` returns the original text, whatever the ambient
`interval` variable holds (the `interval=` form is excepted by the claim). -/
theorem pullPolicy_literal_roundtrip (interval : String) :
    (ParsePullPolicy ("always")).map (PullPolicyString interval) = Except.ok ("always")
      ∧ (ParsePullPolicy ("never")).map (PullPolicyString interval) = Except.ok ("never")
      ∧ (ParsePullPolicy ("if-not-present")).map (PullPolicyString interval) =
        Except.ok ("if-not-present") :=
  ⟨rfl, rfl, rfl⟩

/-- A concrete ledger: pulling interval "1h", one image recorded at
instant 0. -/
def ledgerC1 : ImageJSON :=
  { Interval := { PullingInterval := "1h", PruningIinterval := "7d",
                  LastPrune := TimeStr.invalid "" },
    Image := { ImageIDtoTIME := [("pack.local/builder", TimeStr.valid 0)] } }

/-- Claim C1 counterexample: at the exact boundary — the recorded timestamp
is 0, the pulling interval parses to one hour, and `now` is exactly one hour
— `now - recordedTimestamp ≥ pullingInterval` holds, yet
`CheckImagePullInterval` returns false, because the code compares with the
strict `imageTimestamp.Before(now - duration)`. -/
theorem checkImagePullInterval_boundary_counterexample :
    parseDurationString ("1h") = GoResult.ok (60 * timeMinute)
      ∧ (60 * timeMinute : Int) - 0 ≥ 60 * timeMinute
      ∧ CheckImagePullInterval ledgerC1 ("pack.local/builder") (60 * timeMinute) =
        GoResult.ok false := by
  exact ⟨by decide, by decide, by decide⟩

/-- Claim C1 amended: `CheckImagePullInterval` returns true for a key with
no recorded timestamp; for a recorded key with a parseable timestamp and
pulling interval it returns true exactly when `now` minus the recorded
timestamp is strictly greater than the interval, and false otherwise — in
particular false on the exact boundary. -/
theorem checkImagePullInterval_strict_spec (j : ImageJSON) (imageID : String)
    (now ts dur : Int) :
    (j.Image.ImageIDtoTIME.lookup imageID = none →
      CheckImagePullInterval j imageID now = GoResult.ok true)
      ∧ (j.Image.ImageIDtoTIME.lookup imageID = some (TimeStr.valid ts) →
        parseDurationString j.Interval.PullingInterval = GoResult.ok dur →
        CheckImagePullInterval j imageID now = GoResult.ok (decide (now - ts > dur))) := by
  constructor
  · intro h
    simp [CheckImagePullInterval, h]
  · intro h hdur
    simp only [CheckImagePullInterval, h, hdur]
    congr 1
    simp only [decide_eq_decide]
    omega

/-- Witness for the amended Claim C1 theorem: an unseen key yields true, and
one nanosecond past the boundary yields true. -/
theorem checkImagePullInterval_strict_spec_witness :
    CheckImagePullInterval ledgerC1 ("unseen/image") 0 = GoResult.ok true
      ∧ CheckImagePullInterval ledgerC1 ("pack.local/builder") (60 * timeMinute + 1) =
        GoResult.ok true := by
  constructor
  · exact (checkImagePullInterval_strict_spec ledgerC1 ("unseen/image") 0 0 0).1 (by decide)
  · have h := (checkImagePullInterval_strict_spec ledgerC1 ("pack.local/builder")
      (60 * timeMinute + 1) 0 (60 * timeMinute)).2 (by decide) (by decide)
    rw [h]; decide

/-- The record that pruning at instant `now` with pruning interval `dur`
persists: every entry whose timestamp is older than `now - dur` is deleted
(an entry is kept exactly when `now - dur ≤ t`), `LastPrune` is set to
`now`, and the interval fields are untouched. -/
def pruneExpected (j : ImageJSON) (now dur : Int) : ImageJSON :=
  { Interval := { j.Interval with LastPrune := TimeStr.valid now },
    Image := { ImageIDtoTIME := j.Image.ImageIDtoTIME.filter (fun p =>
      match p.2 with
      | TimeStr.valid t => decide (now - dur ≤ t)
      | TimeStr.invalid _ => true) } }

/-- Claim C6: on a ledger whose pruning interval parses to `dur` and whose
stored timestamps are all well-formed, `PruneOldImages` is a no-op that
writes nothing when `last_prune` is set and `now - last_prune < dur`;
otherwise (unset `last_prune`, or one at least `dur` old) it persists
exactly `pruneExpected`, after which a second call within the pruning
interval is again a write-free no-op; and `pruneExpected` keeps exactly
the entries with `now - dur ≤ t`. -/
theorem pruneOldImages_spec (j : ImageJSON) (now now2 dur : Int)
    (hdur : parseDurationString j.Interval.PruningIinterval = GoResult.ok dur)
    (hvalid : j.Image.ImageIDtoTIME.all (fun p => p.2.isValid) = true) :
    (∀ lp, j.Interval.LastPrune = TimeStr.valid lp → now - lp < dur →
      PruneOldImages j now = GoResult.ok (j, false))
      ∧ ((j.Interval.LastPrune = TimeStr.invalid "" ∨
          (∃ lp, j.Interval.LastPrune = TimeStr.valid lp ∧ dur ≤ now - lp)) →
        PruneOldImages j now = GoResult.ok (pruneExpected j now dur, true)
          ∧ (now2 - now < dur →
            PruneOldImages (pruneExpected j now dur) now2 =
              GoResult.ok (pruneExpected j now dur, false)))
      ∧ (∀ id t, (id, TimeStr.valid t) ∈ (pruneExpected j now dur).Image.ImageIDtoTIME ↔
          ((id, TimeStr.valid t) ∈ j.Image.ImageIDtoTIME ∧ now - dur ≤ t)) := by
  refine ⟨?_, ?_, ?_⟩
  · intro lp hlp hlt
    simp [PruneOldImages, hlp, hdur, hlt]
  · intro hcase
    have hbody : pruneBody j now = GoResult.ok (pruneExpected j now dur, true) := by
      simp [pruneBody, hdur, hvalid, pruneExpected]
    have hmain : PruneOldImages j now = GoResult.ok (pruneExpected j now dur, true) := by
      rcases hcase with hempty | ⟨lp, hlp, hge⟩
      · simp [PruneOldImages, hempty, hbody]
      · have hnlt : ¬ (now - lp < dur) := by omega
        simp [PruneOldImages, hlp, hdur, hnlt, hbody]
    refine ⟨hmain, ?_⟩
    intro hlt2
    simp [PruneOldImages, pruneExpected, hdur, hlt2]
  · intro id t
    simp [pruneExpected, List.mem_filter]

/-- A concrete ledger for pruning: "7d" pruning interval (10080 minutes),
never pruned, one stale entry (instant 0) and one fresh entry. -/
def ledgerC6 : ImageJSON :=
  { Interval := { PullingInterval := "1h", PruningIinterval := "7d",
                  LastPrune := TimeStr.invalid "" },
    Image := { ImageIDtoTIME := [("stale/image", TimeStr.valid 0),
                                 ("fresh/image", TimeStr.valid (19999 * timeMinute))] } }

/-- Witness for the Claim C6 theorem: pruning `ledgerC6` at minute 20000
persists the pruned record, and a second call one minute later is a
write-free no-op. -/
theorem pruneOldImages_spec_witness :
    PruneOldImages ledgerC6 (20000 * timeMinute) =
      GoResult.ok (pruneExpected ledgerC6 (20000 * timeMinute) (10080 * timeMinute), true)
      ∧ PruneOldImages (pruneExpected ledgerC6 (20000 * timeMinute) (10080 * timeMinute))
          (20001 * timeMinute) =
        GoResult.ok (pruneExpected ledgerC6 (20000 * timeMinute) (10080 * timeMinute), false) := by
  have h := (pruneOldImages_spec ledgerC6 (20000 * timeMinute) (20001 * timeMinute)
    (10080 * timeMinute) (by decide) (by decide)).2.1 (Or.inl rfl)
  exact ⟨h.1, h.2 (by decide)⟩

/-- A daemon-targeted fetch under the interval-gated `PullWithInterval`
policy. -/
def intervalOptions : FetchOptions :=
  { Daemon := true, Platform := "", PullPolicy := PullPolicy.PullWithInterval,
    LayoutOption := { Path := "", Sparse := false } }

/-- A daemon-targeted fetch under the default `PullAlways` policy. -/
def alwaysOptions : FetchOptions :=
  { Daemon := true, Platform := "", PullPolicy := PullPolicy.PullAlways,
    LayoutOption := { Path := "", Sparse := false } }

/-- An environment in which every external call a `Fetch` can make
succeeds: mirror translation yields "img", a pull is due, pulling works,
and the image is found on the daemon afterwards. -/
def happyEnv : FetchEnv :=
  { translate := Except.ok ("img"), layoutImage := Except.ok 1,
    remoteImage := Except.ok 2, daemonBefore := Except.ok 3,
    daemonAfter := Except.ok 4, checkPull := true, checkErr := none,
    readImageJSON := none, writeFileErr := none, pruneErr := none,
    pullFirst := none, pullRetry := none, updateErr := none }

/-- The error `UpdateImagePullRecord` returns in the failing run. -/
def updErr : GoErr :=
  { isNotFound := false, platformMismatch := false,
    msg := "failed to write updated image.json" }

/-- A daemon lookup error that is `errors.Is(err, ErrNotFound)`. -/
def notFoundErr : GoErr :=
  { isNotFound := true, platformMismatch := false,
    msg := "image img does not exist on the daemon" }

/-- The run in which the image was acquired but the pull-record update
fails. -/
def envC2 : FetchEnv := { happyEnv with updateErr := some updErr }

/-- Claim C2 counterexample: with acquisition fully successful (the pull
succeeded and the daemon holds the image, handle 4) but the per-image
pull-record update failing, `Fetch` returns the ledger-maintenance error
instead of delivering the image — so a ledger maintenance failure does
cause `Fetch` to return an error, and a non-acquisition failure propagates
as the call's error result. -/
theorem fetch_update_failure_counterexample :
    (Fetch envC2 ("img") intervalOptions).result = FetchResult.err updErr
      ∧ envC2.pullFirst = none ∧ envC2.daemonAfter = Except.ok 4
      ∧ updErr.isNotFound = false := by decide

/-- Claim C2 amended: interval-check and prune failures are only logged —
erasing them from a run changes neither `Fetch`'s result nor its ledger
writes — but a per-image pull-record update failure propagates as the
call's error result even though the image had been acquired. -/
theorem fetch_maintenance_error_policy (env : FetchEnv) (name nameT : String)
    (options : FetchOptions) (e : GoErr) (img : Nat) :
    ((Fetch { env with checkErr := none, pruneErr := none } name options).result =
        (Fetch env name options).result
      ∧ (Fetch { env with checkErr := none, pruneErr := none } name options).writes =
        (Fetch env name options).writes)
      ∧ (env.translate = Except.ok nameT →
        options.LayoutOption = { Path := "", Sparse := false } →
        options.Daemon = true → options.PullPolicy = PullPolicy.PullWithInterval →
        env.checkPull = true → env.pullFirst = none →
        env.daemonAfter = Except.ok img → env.updateErr = some e →
        (Fetch env name options).result = FetchResult.err e) := by
  obtain ⟨tr, li, ri, db, da, cp, ce, rj, wf, pe, p1, p2, ue⟩ := env
  obtain ⟨D, P, pp, lo⟩ := options
  constructor
  · constructor
    all_goals
      simp only [Fetch, pullPhase, afterPull]
      repeat' split
      all_goals rfl
  · intro htr hlo hD hpp hcp hp1 hda hue
    simp only at htr hlo hD hpp hcp hp1 hda hue
    subst htr hlo hD hpp hcp hp1 hda hue
    rfl

/-- Witness for the amended Claim C2 theorem: in the concrete failing run
the update error is the call's result. -/
theorem fetch_maintenance_error_policy_witness :
    (Fetch envC2 ("img") intervalOptions).result = FetchResult.err updErr :=
  (fetch_maintenance_error_policy envC2 ("img") ("img") intervalOptions updErr 4).2
    rfl rfl rfl rfl rfl rfl rfl rfl

/-- Claim C3: a `Fetch` under a policy that is not interval-gated — Always,
Never or IfNotPresent — performs no ledger write at all: no pull-record
update, no prune, no eviction (and `Fetch` never updates the
pulling-interval spec under any policy). Contrapositively, the ledger file
is written by `Fetch` only under an interval-gated policy. -/
theorem fetch_no_ledger_write_nonInterval (env : FetchEnv) (name : String)
    (options : FetchOptions) (h : intervalPolicy options = false) :
    (Fetch env name options).writes = [] := by
  obtain ⟨tr, li, ri, db, da, cp, ce, rj, wf, pe, p1, p2, ue⟩ := env
  obtain ⟨D, P, pp, lo⟩ := options
  simp only [Fetch, pullPhase, afterPull]
  repeat' split
  all_goals first
    | rfl
    | simp_all +decide [intervalPolicy]

/-- Witness for the Claim C3 theorem: a successful `PullAlways` fetch
leaves an empty write trace. -/
theorem fetch_no_ledger_write_nonInterval_witness :
    (Fetch happyEnv ("img") alwaysOptions).writes = [] :=
  fetch_no_ledger_write_nonInterval happyEnv ("img") alwaysOptions (by decide)

/-- The minimal bootstrap ledger document
`{"interval":{"pulling_interval":"","pruning_interval":"7d","last_prune":""},"image":{}}`. -/
def emptyLedger : ImageJSON :=
  { Interval := { PullingInterval := "", PruningIinterval := "7d",
                  LastPrune := TimeStr.invalid "" },
    Image := { ImageIDtoTIME := [] } }

/-- The interval-gated run for Claim C10: the pull is not due, the daemon
lookup fails with `NotFound`, and `ReadImageJSON` fails (returning a nil
record). -/
def envC10 : FetchEnv :=
  { happyEnv with checkPull := false, daemonBefore := Except.error notFoundErr }

/-- Claim C10: when `ReadImageJSON` fails in the self-healing eviction
branch, `Fetch` does not return the `NotFound` result — fetcher.go:139-140
discards the read error and dereferences the nil record, a panic. If the
read succeeds instead, the branch behaves as the claim describes:
the `NotFound` error is returned and the evicting write happens. -/
theorem fetch_eviction_nil_deref_panic :
    Fetch envC10 ("img") intervalOptions =
      { result := FetchResult.panic, writes := [], warnings := [] }
      ∧ envC10.readImageJSON = none
      ∧ (Fetch { envC10 with readImageJSON := some emptyLedger } ("img") intervalOptions).result =
        FetchResult.err notFoundErr
      ∧ (Fetch { envC10 with readImageJSON := some emptyLedger } ("img") intervalOptions).writes =
        [LedgerWrite.evict ("img")] := by decide
